import Mathlib

/-!
Verification development for the Moonfire venture-capital portfolio modeling
demo (C sources under src/).  Doubles are embedded as rationals, the external
bounded-Pareto sampler (UxHwDoubleBoundedparetoDist from uxhw.h) is modelled
as an input stream of draws, and the command-line front end is modelled after
the point where the shared option parser has classified each option.
-/

namespace Moonfire

/-- Embeds the CommonCommandLineArguments struct from the shared common.h:
the flags and the Monte Carlo iteration count that main.c and utilities.c
consult. -/
structure CommonCommandLineArguments where
  isMonteCarloMode : Bool
  numberOfMonteCarloIterations : Nat
  isBenchmarkingMode : Bool
  isTimingEnabled : Bool
  isOutputJSONMode : Bool
  isHelpEnabled : Bool
  isWriteToFileEnabled : Bool
  isInputFromFileEnabled : Bool
  isOutputSelected : Bool
  isVerbose : Bool
deriving DecidableEq, Repr

/-- Embeds the CommandLineArguments struct of src/utilities.h. -/
structure CommandLineArguments where
  common : CommonCommandLineArguments
  alpha : ℚ
  xMin : ℚ
  xMax : ℚ
  numberOfInvestments : Nat
  lowQuantileProbability : ℚ
  highQuantileProbability : ℚ
deriving DecidableEq, Repr

/-- kMoonfireVentureCapitalConstantsTotalInvestment from src/main.c line 31. -/
def kTotalInvestment : ℚ := 1

/-- Default alpha (src/utilities.c line 36). -/
def kDefaultValuesAlpha : ℚ := 1.05

/-- Default xMin (src/utilities.c line 37). -/
def kDefaultValuesXMin : ℚ := 0.35

/-- Default xMax (src/utilities.c line 38). -/
def kDefaultValuesXMax : ℚ := 1000

/-- Default number of investments (src/utilities.h line 30). -/
def kDefaultValuesNumberOfInvestements : Nat := 100

/-- Default low quantile probability (src/utilities.c line 39). -/
def kDefaultValuesLowQuantileProbability : ℚ := 0.01

/-- Default high quantile probability (src/utilities.c line 40). -/
def kDefaultValuesHighQuantileProbability : ℚ := 0.99

/-- perInvestmentValue of src/main.c line 45:
kMoonfireVentureCapitalConstantsTotalInvestment / numberOfInvestments. -/
def perInvestmentValue (arguments : CommandLineArguments) : ℚ :=
  kTotalInvestment / (arguments.numberOfInvestments : ℚ)

/-- loadInvestmentReturns of src/main.c lines 40-58.  The external sampler
UxHwDoubleBoundedparetoDist(alpha, xMin, xMax + xMin) is modelled by the
stream of draws it produces: draws i is the value of the i-th call.  Each
entry is the draw shifted down by xMin and scaled by perInvestmentValue. -/
def loadInvestmentReturns (arguments : CommandLineArguments) (draws : Nat → ℚ) :
    List ℚ :=
  (List.range arguments.numberOfInvestments).map
    (fun i => (draws i - arguments.xMin) * perInvestmentValue arguments)

/-- calculatePortfolioReturn of src/main.c lines 68-81: accumulates the
entries of the investmentReturns array left to right starting from 0.0. -/
def calculatePortfolioReturn (arguments : CommandLineArguments)
    (investmentReturns : List ℚ) : ℚ :=
  investmentReturns.foldl (fun acc r => acc + r) 0

/-- Left fold of addition over a mapped range is the corresponding finite sum. -/
theorem foldl_add_map_range (f : Nat → ℚ) (n : Nat) :
    ((List.range n).map f).foldl (fun acc r => acc + r) 0
      = ∑ i in Finset.range n, f i := by
  induction n with
  | zero => simp
  | succ n ih =>
      rw [List.range_succ, List.map_append, List.foldl_append, ih,
        Finset.sum_range_succ]
      simp

/-- C1: the total portfolio return of one trial is the sum over the
investments of (draw i - xMin) * (1 / numberOfInvestments)
(loadInvestmentReturns followed by calculatePortfolioReturn). -/
theorem portfolioReturn_eq_sum_shifted_scaled_draws
    (arguments : CommandLineArguments) (draws : Nat → ℚ)
    (hn : 1 ≤ arguments.numberOfInvestments) :
    calculatePortfolioReturn arguments (loadInvestmentReturns arguments draws)
      = ∑ i in Finset.range arguments.numberOfInvestments,
          (draws i - arguments.xMin) * (1 / (arguments.numberOfInvestments : ℚ)) := by
  unfold calculatePortfolioReturn loadInvestmentReturns
  rw [foldl_add_map_range]
  refine Finset.sum_congr rfl (fun i _ => ?_)
  simp [perInvestmentValue, kTotalInvestment]

/-- Concrete configuration used in the witness of C1. -/
def c1Arguments : CommandLineArguments :=
  { common :=
      { isMonteCarloMode := false
        numberOfMonteCarloIterations := 1
        isBenchmarkingMode := false
        isTimingEnabled := false
        isOutputJSONMode := false
        isHelpEnabled := false
        isWriteToFileEnabled := false
        isInputFromFileEnabled := false
        isOutputSelected := false
        isVerbose := false }
    alpha := 1.05
    xMin := 1
    xMax := 10
    numberOfInvestments := 2
    lowQuantileProbability := 0.01
    highQuantileProbability := 0.99 }

/-- Witness for C1 at a concrete two-investment configuration. -/
theorem portfolioReturn_eq_sum_shifted_scaled_draws_witness :
    1 ≤ c1Arguments.numberOfInvestments ∧
    calculatePortfolioReturn c1Arguments
        (loadInvestmentReturns c1Arguments (fun i => (i : ℚ) + 2))
      = ∑ i in Finset.range c1Arguments.numberOfInvestments,
          (((i : ℚ) + 2) - c1Arguments.xMin)
            * (1 / (c1Arguments.numberOfInvestments : ℚ)) :=
  ⟨by decide,
    portfolioReturn_eq_sum_shifted_scaled_draws c1Arguments
      (fun i => (i : ℚ) + 2) (by decide)⟩

/-- MeanAndVariance record of the shared common code. -/
structure MeanAndVariance where
  mean : ℚ
  variance : ℚ
deriving DecidableEq, Repr

/-- Accumulator of a streaming (Welford) mean/variance pass. -/
structure WelfordState where
  count : Nat
  mean : ℚ
  m2 : ℚ
deriving DecidableEq, Repr

/-- One Welford update step. -/
def welfordStep (s : WelfordState) (x : ℚ) : WelfordState :=
  let count := s.count + 1
  let delta := x - s.mean
  let mean := s.mean + delta / (count : ℚ)
  { count := count, mean := mean, m2 := s.m2 + delta * (x - mean) }

/-- Modelled from the spec: calculateMeanAndVarianceOfDoubleSamples is part
of the shared common utilities, which are not under src/; spec section 4.4
requires a streaming single-pass (Welford) mean and variance over the sample
set, tolerating a single sample (variance 0). -/
def calculateMeanAndVarianceOfDoubleSamples (samples : List ℚ) (count : Nat) :
    MeanAndVariance :=
  let final := (samples.take count).foldl welfordStep
    { count := 0, mean := 0, m2 := 0 }
  { mean := final.mean
    variance := if final.count = 0 then 0 else final.m2 / (final.count : ℚ) }

/-- State of the per-trial loop of main (src/main.c lines 86-96 and 131-162).
The three statistics variables are uninitialised at entry, modelled as
Option values that become some when the corresponding assignment runs.
Writes to the monteCarloOutputSamples array are recorded as a log of
(slot, value) pairs. -/
structure TrialLoopState where
  probabilityOfLoss : Option ℚ
  lowQuantile : Option ℚ
  highQuantile : Option ℚ
  monteCarloWrites : List (Nat × ℚ)
  portfolioReturn : Option ℚ
deriving DecidableEq, Repr

/-- Loop state at entry of the trial loop: nothing assigned, no writes. -/
def initialTrialLoopState : TrialLoopState :=
  { probabilityOfLoss := none
    lowQuantile := none
    highQuantile := none
    monteCarloWrites := []
    portfolioReturn := none }

/-- The portfolio return computed by trial i: loadInvestmentReturns followed
by calculatePortfolioReturn, consuming the draws of trial i (draws i j is the
j-th sampler call of the i-th trial). -/
def trialReturn (arguments : CommandLineArguments) (draws : Nat → Nat → ℚ)
    (i : Nat) : ℚ :=
  calculatePortfolioReturn arguments (loadInvestmentReturns arguments (draws i))

/-- Body of the trial loop, src/main.c lines 131-162.  probabilityGT and
quantile model the external UxHwDoubleProbabilityGT and UxHwDoubleQuantile:
the probability-of-loss and quantile assignments run exactly when
benchmarking mode is off; the Monte Carlo write of slot i runs exactly when
Monte Carlo mode is on. -/
def trialLoopBody (arguments : CommandLineArguments)
    (probabilityGT quantile : ℚ → ℚ → ℚ) (draws : Nat → Nat → ℚ)
    (s : TrialLoopState) (i : Nat) : TrialLoopState :=
  let ret := trialReturn arguments draws i
  let s1 := { s with portfolioReturn := some ret }
  let s2 :=
    if arguments.common.isBenchmarkingMode then s1
    else
      { s1 with
        probabilityOfLoss := some (1 - probabilityGT ret kTotalInvestment)
        lowQuantile := some (quantile ret arguments.lowQuantileProbability)
        highQuantile := some (quantile ret arguments.highQuantileProbability) }
  if arguments.common.isMonteCarloMode then
    { s2 with monteCarloWrites := s2.monteCarloWrites ++ [(i, ret)] }
  else s2

/-- The whole trial loop: iterations i = 0 .. numberOfMonteCarloIterations-1. -/
def runTrialLoop (arguments : CommandLineArguments)
    (probabilityGT quantile : ℚ → ℚ → ℚ) (draws : Nat → Nat → ℚ) :
    TrialLoopState :=
  (List.range arguments.common.numberOfMonteCarloIterations).foldl
    (trialLoopBody arguments probabilityGT quantile draws) initialTrialLoopState

/-- The sequence of per-trial total portfolio returns of one run. -/
def monteCarloSamples (arguments : CommandLineArguments)
    (draws : Nat → Nat → ℚ) : List ℚ :=
  (List.range arguments.common.numberOfMonteCarloIterations).map
    (trialReturn arguments draws)

/-- The trial loop followed by the Monte Carlo post-processing of src/main.c
lines 168-174: in Monte Carlo mode the reported portfolio return becomes the
mean field of calculateMeanAndVarianceOfDoubleSamples over the collected
samples. -/
def runMainComputation (arguments : CommandLineArguments)
    (probabilityGT quantile : ℚ → ℚ → ℚ) (draws : Nat → Nat → ℚ) :
    TrialLoopState :=
  let s := runTrialLoop arguments probabilityGT quantile draws
  if arguments.common.isMonteCarloMode then
    { s with
      portfolioReturn := some
        (calculateMeanAndVarianceOfDoubleSamples
          (s.monteCarloWrites.map Prod.snd)
          arguments.common.numberOfMonteCarloIterations).mean }
  else s

/-- In benchmarking mode one loop iteration leaves the three statistics
variables untouched. -/
theorem trialLoopBody_benchmarking_stats (arguments : CommandLineArguments)
    (probabilityGT quantile : ℚ → ℚ → ℚ) (draws : Nat → Nat → ℚ)
    (hb : arguments.common.isBenchmarkingMode = true)
    (s : TrialLoopState) (i : Nat) :
    (trialLoopBody arguments probabilityGT quantile draws s i).probabilityOfLoss
        = s.probabilityOfLoss
    ∧ (trialLoopBody arguments probabilityGT quantile draws s i).lowQuantile
        = s.lowQuantile
    ∧ (trialLoopBody arguments probabilityGT quantile draws s i).highQuantile
        = s.highQuantile := by
  unfold trialLoopBody
  rw [hb]
  split <;> split <;> simp_all

/-- In benchmarking mode the whole fold leaves the three statistics
variables untouched. -/
theorem foldl_benchmarking_stats (arguments : CommandLineArguments)
    (probabilityGT quantile : ℚ → ℚ → ℚ) (draws : Nat → Nat → ℚ)
    (hb : arguments.common.isBenchmarkingMode = true) :
    ∀ (l : List Nat) (s : TrialLoopState),
      ((l.foldl (trialLoopBody arguments probabilityGT quantile draws) s).probabilityOfLoss
          = s.probabilityOfLoss)
      ∧ ((l.foldl (trialLoopBody arguments probabilityGT quantile draws) s).lowQuantile
          = s.lowQuantile)
      ∧ ((l.foldl (trialLoopBody arguments probabilityGT quantile draws) s).highQuantile
          = s.highQuantile) := by
  intro l
  induction l with
  | nil => intro s; simp
  | cons a t ih =>
      intro s
      have hstep := trialLoopBody_benchmarking_stats arguments probabilityGT
        quantile draws hb s a
      have ht := ih (trialLoopBody arguments probabilityGT quantile draws s a)
      simp only [List.foldl_cons]
      exact ⟨ht.1.trans hstep.1, ht.2.1.trans hstep.2.1, ht.2.2.trans hstep.2.2⟩

/-- Without benchmarking mode, a nonempty fold assigns all three statistics
variables. -/
theorem foldl_not_benchmarking_stats (arguments : CommandLineArguments)
    (probabilityGT quantile : ℚ → ℚ → ℚ) (draws : Nat → Nat → ℚ)
    (hb : arguments.common.isBenchmarkingMode = false) :
    ∀ (l : List Nat) (s : TrialLoopState), l ≠ [] →
      ((l.foldl (trialLoopBody arguments probabilityGT quantile draws) s).probabilityOfLoss.isSome
          = true)
      ∧ ((l.foldl (trialLoopBody arguments probabilityGT quantile draws) s).lowQuantile.isSome
          = true)
      ∧ ((l.foldl (trialLoopBody arguments probabilityGT quantile draws) s).highQuantile.isSome
          = true) := by
  intro l
  induction l with
  | nil => intro s h; exact absurd rfl h
  | cons a t ih =>
      intro s _
      by_cases ht : t = []
      · subst ht
        simp only [List.foldl_cons, List.foldl_nil]
        unfold trialLoopBody
        rw [hb]
        split <;> split <;> simp_all
      · simp only [List.foldl_cons]
        exact ih (trialLoopBody arguments probabilityGT quantile draws s a) ht

/-- In Monte Carlo mode the fold appends exactly one (slot, trial return)
pair per iteration to the write log. -/
theorem foldl_monteCarloWrites (arguments : CommandLineArguments)
    (probabilityGT quantile : ℚ → ℚ → ℚ) (draws : Nat → Nat → ℚ)
    (hm : arguments.common.isMonteCarloMode = true) :
    ∀ (l : List Nat) (s : TrialLoopState),
      (l.foldl (trialLoopBody arguments probabilityGT quantile draws) s).monteCarloWrites
        = s.monteCarloWrites
          ++ l.map (fun i => (i, trialReturn arguments draws i)) := by
  intro l
  induction l with
  | nil => intro s; simp
  | cons a t ih =>
      intro s
      simp only [List.foldl_cons, List.map_cons]
      rw [ih]
      have hstep :
          (trialLoopBody arguments probabilityGT quantile draws s a).monteCarloWrites
            = s.monteCarloWrites ++ [(a, trialReturn arguments draws a)] := by
        unfold trialLoopBody
        rw [hm]
        split <;> split <;> simp_all
      rw [hstep]
      simp

/-- Projecting the second components out of an enumerated list of pairs. -/
theorem map_snd_enumerated (f : Nat → ℚ) (l : List Nat) :
    (l.map (fun i => (i, f i))).map Prod.snd = l.map f := by
  induction l with
  | nil => rfl
  | cons a t ih => simp [ih]

/-- Projecting the first components out of an enumerated list of pairs. -/
theorem map_fst_enumerated (f : Nat → ℚ) (l : List Nat) :
    (l.map (fun i => (i, f i))).map Prod.fst = l := by
  induction l with
  | nil => rfl
  | cons a t ih => simp [ih]

/-- Concrete Monte Carlo configuration used in the C2 theorems: Monte Carlo
mode on, benchmarking mode off, one iteration, one investment. -/
def c2Arguments : CommandLineArguments :=
  { common :=
      { isMonteCarloMode := true
        numberOfMonteCarloIterations := 1
        isBenchmarkingMode := false
        isTimingEnabled := false
        isOutputJSONMode := false
        isHelpEnabled := false
        isWriteToFileEnabled := false
        isInputFromFileEnabled := false
        isOutputSelected := false
        isVerbose := false }
    alpha := 1.05
    xMin := 0
    xMax := 1
    numberOfInvestments := 1
    lowQuantileProbability := 0.01
    highQuantileProbability := 0.99 }

/-- C2 counterexample: in Monte Carlo mode with benchmarking off, the trial
loop does assign probabilityOfLoss (and the quantiles) during a trial
iteration, so the per-trial statistics computation is not skipped. -/
theorem mcMode_perTrial_stats_not_skipped_cx :
    c2Arguments.common.isMonteCarloMode = true
    ∧ c2Arguments.common.isBenchmarkingMode = false
    ∧ (runTrialLoop c2Arguments (fun _ _ => 0) (fun _ _ => 0)
        (fun _ _ => 1)).probabilityOfLoss ≠ none
    ∧ (runTrialLoop c2Arguments (fun _ _ => 0) (fun _ _ => 0)
        (fun _ _ => 1)).lowQuantile ≠ none := by
  refine ⟨rfl, rfl, ?_, ?_⟩ <;> decide

/-- C2 amended: in Monte Carlo mode the per-trial probability-of-loss and
quantile computation is skipped exactly when benchmarking mode is on (it does
run each iteration otherwise); the reported portfolio return is the mean of
calculateMeanAndVarianceOfDoubleSamples over the collected trial samples. -/
theorem mcMode_stats_skipped_iff_benchmarking_and_mean_reported
    (arguments : CommandLineArguments)
    (probabilityGT quantile : ℚ → ℚ → ℚ) (draws : Nat → Nat → ℚ)
    (hm : arguments.common.isMonteCarloMode = true)
    (hn : 1 ≤ arguments.common.numberOfMonteCarloIterations) :
    ((runMainComputation arguments probabilityGT quantile draws).probabilityOfLoss.isSome
        = !arguments.common.isBenchmarkingMode)
    ∧ (runMainComputation arguments probabilityGT quantile draws).portfolioReturn
        = some (calculateMeanAndVarianceOfDoubleSamples
            (monteCarloSamples arguments draws)
            arguments.common.numberOfMonteCarloIterations).mean := by
  have hwrites := foldl_monteCarloWrites arguments probabilityGT quantile draws hm
    (List.range arguments.common.numberOfMonteCarloIterations) initialTrialLoopState
  have hne : List.range arguments.common.numberOfMonteCarloIterations ≠ [] := by
    intro h
    have := List.range_eq_nil.mp h
    omega
  constructor
  · unfold runMainComputation
    rw [hm]
    simp only [if_true]
    cases hb : arguments.common.isBenchmarkingMode with
    | true =>
        have := (foldl_benchmarking_stats arguments probabilityGT quantile draws hb
          (List.range arguments.common.numberOfMonteCarloIterations)
          initialTrialLoopState).1
        unfold runTrialLoop
        simp_all [initialTrialLoopState]
    | false =>
        have := (foldl_not_benchmarking_stats arguments probabilityGT quantile draws hb
          (List.range arguments.common.numberOfMonteCarloIterations)
          initialTrialLoopState hne).1
        unfold runTrialLoop
        simp_all
  · unfold runMainComputation
    rw [hm]
    simp only [if_true]
    unfold runTrialLoop
    rw [hwrites]
    simp only [initialTrialLoopState, List.nil_append, map_snd_enumerated,
      monteCarloSamples]

/-- Witness for the amended C2 at the concrete Monte Carlo configuration. -/
theorem mcMode_stats_skipped_iff_benchmarking_and_mean_reported_witness :
    ((runMainComputation c2Arguments (fun _ _ => 0) (fun _ _ => 0)
        (fun _ _ => 1)).probabilityOfLoss.isSome
      = !c2Arguments.common.isBenchmarkingMode)
    ∧ (runMainComputation c2Arguments (fun _ _ => 0) (fun _ _ => 0)
        (fun _ _ => 1)).portfolioReturn
      = some (calculateMeanAndVarianceOfDoubleSamples
          (monteCarloSamples c2Arguments (fun _ _ => 1))
          c2Arguments.common.numberOfMonteCarloIterations).mean :=
  mcMode_stats_skipped_iff_benchmarking_and_mean_reported c2Arguments
    (fun _ _ => 0) (fun _ _ => 0) (fun _ _ => 1) rfl (by decide)

/-- C5: in Monte Carlo mode, iteration i writes exactly the pair
(i, trial i return) into the sample buffer, so every slot is written exactly
once, and the reported portfolio return is the mean field of
calculateMeanAndVarianceOfDoubleSamples over exactly those samples. -/
theorem mcMode_slot_writes_and_reported_mean
    (arguments : CommandLineArguments)
    (probabilityGT quantile : ℚ → ℚ → ℚ) (draws : Nat → Nat → ℚ)
    (hm : arguments.common.isMonteCarloMode = true) :
    ((runMainComputation arguments probabilityGT quantile draws).monteCarloWrites
        = (List.range arguments.common.numberOfMonteCarloIterations).map
            (fun i => (i, trialReturn arguments draws i)))
    ∧ ((runMainComputation arguments probabilityGT quantile draws).monteCarloWrites.map
          Prod.fst
        = List.range arguments.common.numberOfMonteCarloIterations)
    ∧ (runMainComputation arguments probabilityGT quantile draws).portfolioReturn
        = some (calculateMeanAndVarianceOfDoubleSamples
            (monteCarloSamples arguments draws)
            arguments.common.numberOfMonteCarloIterations).mean := by
  have hwrites := foldl_monteCarloWrites arguments probabilityGT quantile draws hm
    (List.range arguments.common.numberOfMonteCarloIterations) initialTrialLoopState
  refine ⟨?_, ?_, ?_⟩ <;>
    · unfold runMainComputation
      rw [hm]
      simp only [if_true]
      unfold runTrialLoop
      rw [hwrites]
      simp only [initialTrialLoopState, List.nil_append, map_snd_enumerated,
        map_fst_enumerated, monteCarloSamples]

/-- Witness for C5 at a concrete Monte Carlo configuration. -/
theorem mcMode_slot_writes_and_reported_mean_witness :
    ((runMainComputation c2Arguments (fun _ _ => 1) (fun _ _ => 2)
        (fun i j => (i : ℚ) + (j : ℚ))).monteCarloWrites
      = (List.range c2Arguments.common.numberOfMonteCarloIterations).map
          (fun i => (i, trialReturn c2Arguments (fun i j => (i : ℚ) + (j : ℚ)) i)))
    ∧ ((runMainComputation c2Arguments (fun _ _ => 1) (fun _ _ => 2)
          (fun i j => (i : ℚ) + (j : ℚ))).monteCarloWrites.map Prod.fst
      = List.range c2Arguments.common.numberOfMonteCarloIterations)
    ∧ (runMainComputation c2Arguments (fun _ _ => 1) (fun _ _ => 2)
        (fun i j => (i : ℚ) + (j : ℚ))).portfolioReturn
      = some (calculateMeanAndVarianceOfDoubleSamples
          (monteCarloSamples c2Arguments (fun i j => (i : ℚ) + (j : ℚ)))
          c2Arguments.common.numberOfMonteCarloIterations).mean :=
  mcMode_slot_writes_and_reported_mean c2Arguments
    (fun _ _ => 1) (fun _ _ => 2) (fun i j => (i : ℚ) + (j : ℚ)) rfl

/-- C6: in benchmarking mode the trial loop never assigns probabilityOfLoss,
lowQuantile or highQuantile, for any trial count and either Monte Carlo
setting: after the whole run they are still unassigned. -/
theorem benchmarking_never_assigns_stats
    (arguments : CommandLineArguments)
    (probabilityGT quantile : ℚ → ℚ → ℚ) (draws : Nat → Nat → ℚ)
    (hb : arguments.common.isBenchmarkingMode = true) :
    (runMainComputation arguments probabilityGT quantile draws).probabilityOfLoss = none
    ∧ (runMainComputation arguments probabilityGT quantile draws).lowQuantile = none
    ∧ (runMainComputation arguments probabilityGT quantile draws).highQuantile = none := by
  have h := foldl_benchmarking_stats arguments probabilityGT quantile draws hb
    (List.range arguments.common.numberOfMonteCarloIterations) initialTrialLoopState
  unfold runMainComputation runTrialLoop
  split <;> simp_all [initialTrialLoopState]

/-- Concrete benchmarking configuration used in the C6 witness. -/
def c6Arguments : CommandLineArguments :=
  { common :=
      { isMonteCarloMode := true
        numberOfMonteCarloIterations := 3
        isBenchmarkingMode := true
        isTimingEnabled := false
        isOutputJSONMode := false
        isHelpEnabled := false
        isWriteToFileEnabled := false
        isInputFromFileEnabled := false
        isOutputSelected := false
        isVerbose := false }
    alpha := 1.05
    xMin := 0.35
    xMax := 1000
    numberOfInvestments := 2
    lowQuantileProbability := 0.01
    highQuantileProbability := 0.99 }

/-- Witness for C6 at a concrete benchmarking Monte Carlo configuration. -/
theorem benchmarking_never_assigns_stats_witness :
    (runMainComputation c6Arguments (fun _ _ => 0) (fun _ _ => 0)
        (fun _ _ => 1)).probabilityOfLoss = none
    ∧ (runMainComputation c6Arguments (fun _ _ => 0) (fun _ _ => 0)
        (fun _ _ => 1)).lowQuantile = none
    ∧ (runMainComputation c6Arguments (fun _ _ => 0) (fun _ _ => 0)
        (fun _ _ => 1)).highQuantile = none :=
  benchmarking_never_assigns_stats c6Arguments
    (fun _ _ => 0) (fun _ _ => 0) (fun _ _ => 1) rfl

/-- C9: the sequence of total portfolio returns is a deterministic function
of the configuration and of the draw sequence alone: two runs with equal
configurations and pointwise-equal draw sequences produce identical
per-trial return sequences. -/
theorem trial_returns_deterministic
    (argumentsA argumentsB : CommandLineArguments)
    (drawsA drawsB : Nat → Nat → ℚ)
    (hArgs : argumentsA = argumentsB)
    (hDraws : ∀ i j, drawsA i j = drawsB i j) :
    monteCarloSamples argumentsA drawsA = monteCarloSamples argumentsB drawsB
    ∧ ∀ i, trialReturn argumentsA drawsA i = trialReturn argumentsB drawsB i := by
  subst hArgs
  have hd : drawsA = drawsB := funext (fun i => funext (fun j => hDraws i j))
  subst hd
  exact ⟨rfl, fun _ => rfl⟩

/-- Witness for C9 at a concrete configuration and draw stream. -/
theorem trial_returns_deterministic_witness :
    monteCarloSamples c1Arguments (fun i j => (i : ℚ) * 3 + (j : ℚ))
      = monteCarloSamples c1Arguments (fun i j => (i : ℚ) * 3 + (j : ℚ))
    ∧ ∀ i, trialReturn c1Arguments (fun i j => (i : ℚ) * 3 + (j : ℚ)) i
        = trialReturn c1Arguments (fun i j => (i : ℚ) * 3 + (j : ℚ)) i :=
  trial_returns_deterministic c1Arguments c1Arguments
    (fun i j => (i : ℚ) * 3 + (j : ℚ)) (fun i j => (i : ℚ) * 3 + (j : ℚ))
    rfl (fun _ _ => rfl)

/-- Concrete valid configuration used in the C3 counterexample: alpha = 1,
xMin = 1, xMax = 2, one investment. -/
def c3Arguments : CommandLineArguments :=
  { common :=
      { isMonteCarloMode := false
        numberOfMonteCarloIterations := 1
        isBenchmarkingMode := false
        isTimingEnabled := false
        isOutputJSONMode := false
        isHelpEnabled := false
        isWriteToFileEnabled := false
        isInputFromFileEnabled := false
        isOutputSelected := false
        isVerbose := false }
    alpha := 1
    xMin := 1
    xMax := 2
    numberOfInvestments := 1
    lowQuantileProbability := 0.01
    highQuantileProbability := 0.99 }

/-- C3 counterexample: at the valid configuration alpha = 1, xMin = 1,
xMax = 2, n = 1, the draw 3 lies in the sampler support
[xMin, xMax + xMin] = [1, 3], yet the entry written by loadInvestmentReturns
is 2, above the claimed bound (xMax - xMin) * (1 / n) = 1. -/
theorem investmentReturns_claimed_bound_cx :
    (0 < c3Arguments.alpha ∧ 0 ≤ c3Arguments.xMin
      ∧ c3Arguments.xMin ≤ c3Arguments.xMax
      ∧ 1 ≤ c3Arguments.numberOfInvestments)
    ∧ (c3Arguments.xMin ≤ 3 ∧ (3 : ℚ) ≤ c3Arguments.xMax + c3Arguments.xMin)
    ∧ loadInvestmentReturns c3Arguments (fun _ => 3) = [2]
    ∧ ¬ ((2 : ℚ) ≤ (c3Arguments.xMax - c3Arguments.xMin)
          * (1 / (c3Arguments.numberOfInvestments : ℚ))) := by
  refine ⟨?_, ?_, ?_, ?_⟩ <;>
    norm_num [c3Arguments, loadInvestmentReturns, perInvestmentValue,
      kTotalInvestment, List.range_succ]

/-- C3 amended: for a valid configuration and draws inside the sampler
support [xMin, xMax + xMin], every entry written by loadInvestmentReturns
lies in [0, xMax * (1 / numberOfInvestments)] (the claimed upper bound
(xMax - xMin) * (1 / n) must be corrected to xMax * (1 / n), the shift of
the support [xMin, xMax + xMin] down by xMin being [0, xMax]). -/
theorem investmentReturns_entries_bounded
    (arguments : CommandLineArguments) (draws : Nat → ℚ)
    (ha : 0 < arguments.alpha) (h0 : 0 ≤ arguments.xMin)
    (hx : arguments.xMin ≤ arguments.xMax)
    (hn : 1 ≤ arguments.numberOfInvestments)
    (hd : ∀ i, i < arguments.numberOfInvestments →
      arguments.xMin ≤ draws i ∧ draws i ≤ arguments.xMax + arguments.xMin) :
    ∀ r ∈ loadInvestmentReturns arguments draws,
      0 ≤ r ∧ r ≤ arguments.xMax * (1 / (arguments.numberOfInvestments : ℚ)) := by
  intro r hr
  unfold loadInvestmentReturns at hr
  rw [List.mem_map] at hr
  obtain ⟨i, hi, hri⟩ := hr
  rw [List.mem_range] at hi
  obtain ⟨hlo, hhi⟩ := hd i hi
  have hpos : (0 : ℚ) < (arguments.numberOfInvestments : ℚ) := by
    exact_mod_cast Nat.lt_of_lt_of_le Nat.zero_lt_one hn
  have hper : perInvestmentValue arguments
      = 1 / (arguments.numberOfInvestments : ℚ) := by
    unfold perInvestmentValue kTotalInvestment
    ring
  have hpernn : 0 ≤ perInvestmentValue arguments := by
    rw [hper]
    positivity
  subst hri
  constructor
  · apply mul_nonneg _ hpernn
    linarith
  · rw [hper]
    apply mul_le_mul_of_nonneg_right _ (by positivity)
    linarith

/-- Witness for the amended C3: the concrete entry 2 produced by the
configuration of c3Arguments with constant draw 3 satisfies the corrected
bounds. -/
theorem investmentReturns_entries_bounded_witness :
    0 ≤ (2 : ℚ)
    ∧ (2 : ℚ) ≤ c3Arguments.xMax * (1 / (c3Arguments.numberOfInvestments : ℚ)) :=
  investmentReturns_entries_bounded c3Arguments (fun _ => 3)
    (by norm_num [c3Arguments]) (by norm_num [c3Arguments])
    (by norm_num [c3Arguments]) (by decide)
    (fun i _ => ⟨by norm_num [c3Arguments], by norm_num [c3Arguments]⟩)
    2
    (by norm_num [c3Arguments, loadInvestmentReturns, perInvestmentValue,
      kTotalInvestment, List.range_succ])

/-- Concrete degenerate configuration used in the C8 theorems:
xMin = xMax = 5, one investment. -/
def c8Arguments : CommandLineArguments :=
  { common :=
      { isMonteCarloMode := false
        numberOfMonteCarloIterations := 1
        isBenchmarkingMode := false
        isTimingEnabled := false
        isOutputJSONMode := false
        isHelpEnabled := false
        isWriteToFileEnabled := false
        isInputFromFileEnabled := false
        isOutputSelected := false
        isVerbose := false }
    alpha := 1.05
    xMin := 5
    xMax := 5
    numberOfInvestments := 1
    lowQuantileProbability := 0.01
    highQuantileProbability := 0.99 }

/-- C8 counterexample: with xMin = xMax = 5 the sampler is invoked over the
support [xMin, xMax + xMin] = [5, 10], which is not degenerate: the draw 7
lies in that support, differs from 5, and produces the nonzero entry 2. -/
theorem degenerate_draw_not_constant_cx :
    (c8Arguments.xMin = 5 ∧ c8Arguments.xMax = 5)
    ∧ (c8Arguments.xMin ≤ 7 ∧ (7 : ℚ) ≤ c8Arguments.xMax + c8Arguments.xMin)
    ∧ (7 : ℚ) ≠ 5
    ∧ loadInvestmentReturns c8Arguments (fun _ => 7) = [2]
    ∧ (2 : ℚ) ≠ 0 := by
  refine ⟨?_, ?_, ?_, ?_, ?_⟩ <;>
    norm_num [c8Arguments, loadInvestmentReturns, perInvestmentValue,
      kTotalInvestment, List.range_succ]

/-- C8 amended: with xMin = xMax = 5 the sampler support requested by
loadInvestmentReturns is [5, 10] = [xMin, xMax + xMin], not the single point
5; for draws inside that support each entry equals
(draw - 5) * (1 / numberOfInvestments), lying in [0, 5 / numberOfInvestments]
and equal to 0 exactly when the draw equals the lower support bound 5. -/
theorem degenerate_entries_shifted_scaled
    (arguments : CommandLineArguments) (draws : Nat → ℚ)
    (hmin : arguments.xMin = 5) (hmax : arguments.xMax = 5)
    (hn : 1 ≤ arguments.numberOfInvestments)
    (hd : ∀ i, i < arguments.numberOfInvestments →
      (5 : ℚ) ≤ draws i ∧ draws i ≤ 10) :
    ∀ r ∈ loadInvestmentReturns arguments draws,
      (∃ i, i < arguments.numberOfInvestments
        ∧ r = (draws i - 5) * (1 / (arguments.numberOfInvestments : ℚ)))
      ∧ 0 ≤ r ∧ r ≤ 5 * (1 / (arguments.numberOfInvestments : ℚ)) := by
  intro r hr
  unfold loadInvestmentReturns at hr
  rw [List.mem_map] at hr
  obtain ⟨i, hi, hri⟩ := hr
  rw [List.mem_range] at hi
  obtain ⟨hlo, hhi⟩ := hd i hi
  have hpos : (0 : ℚ) < (arguments.numberOfInvestments : ℚ) := by
    exact_mod_cast Nat.lt_of_lt_of_le Nat.zero_lt_one hn
  have hper : perInvestmentValue arguments
      = 1 / (arguments.numberOfInvestments : ℚ) := by
    unfold perInvestmentValue kTotalInvestment
    ring
  subst hri
  rw [hmin, hper]
  refine ⟨⟨i, hi, rfl⟩, ?_, ?_⟩
  · apply mul_nonneg _ (by positivity)
    linarith
  · apply mul_le_mul_of_nonneg_right _ (by positivity)
    linarith

/-- Witness for the amended C8: the concrete entry 2 produced by the
degenerate configuration with constant draw 7 satisfies the corrected
description. -/
theorem degenerate_entries_shifted_scaled_witness :
    (∃ i, i < c8Arguments.numberOfInvestments
      ∧ (2 : ℚ) = (((fun _ => (7 : ℚ)) i : ℚ) - 5)
          * (1 / (c8Arguments.numberOfInvestments : ℚ)))
    ∧ 0 ≤ (2 : ℚ)
    ∧ (2 : ℚ) ≤ 5 * (1 / (c8Arguments.numberOfInvestments : ℚ)) :=
  degenerate_entries_shifted_scaled c8Arguments (fun _ => 7)
    rfl rfl (by decide)
    (fun i _ => ⟨by norm_num [c8Arguments], by norm_num [c8Arguments]⟩)
    2
    (by norm_num [c8Arguments, loadInvestmentReturns, perInvestmentValue,
      kTotalInvestment, List.range_succ])

/-- Outcome of one option as classified by the shared option parser
(parseArgs with parseDoubleChecked, common code outside src/): the option is
absent, present with an unparseable value, or present with the parsed value. -/
inductive ArgVal where
  | absent
  | malformed
  | given (v : ℚ)
deriving DecidableEq, Repr

/-- Same as ArgVal but for the integer-valued -n option (parseIntChecked). -/
inductive IntArgVal where
  | absent
  | malformed
  | given (v : Int)
deriving DecidableEq, Repr

/-- The command line as seen by getCommandLineArguments after parseArgs:
whether parseArgs itself succeeded, the common flags it set, and the
classification of each application-specific option. -/
structure RawArgs where
  parseOk : Bool
  common : CommonCommandLineArguments
  alphaArg : ArgVal
  xMinArg : ArgVal
  xMaxArg : ArgVal
  numberOfInvestmentsArg : IntArgVal
  lowQuantileArg : ArgVal
  highQuantileArg : ArgVal
deriving DecidableEq, Repr

/-- How getCommandLineArguments terminates when it does not produce a
validated argument record: an error return (main then exits EXIT_FAILURE) or
the help path, which calls exit(EXIT_SUCCESS) from inside the function. -/
inductive ExitKind where
  | failure
  | helpSuccess
deriving DecidableEq, Repr

/-- The typecheck-and-store pattern of src/utilities.c for one double-valued
option: absent keeps the default, an unparseable value is an error, a parsed
value v is an error when reject v and stored otherwise. -/
def resolveDoubleArg (a : ArgVal) (dflt : ℚ) (reject : ℚ → Bool) :
    Except ExitKind ℚ :=
  match a with
  | ArgVal.absent => Except.ok dflt
  | ArgVal.malformed => Except.error ExitKind.failure
  | ArgVal.given v =>
      if reject v then Except.error ExitKind.failure else Except.ok v

/-- The same pattern for the integer-valued -n option (cast to size_t after
the check, src/utilities.c line 306). -/
def resolveIntArg (a : IntArgVal) (dflt : Nat) (reject : Int → Bool) :
    Except ExitKind Nat :=
  match a with
  | IntArgVal.absent => Except.ok dflt
  | IntArgVal.malformed => Except.error ExitKind.failure
  | IntArgVal.given v =>
      if reject v then Except.error ExitKind.failure else Except.ok v.toNat

/-- getCommandLineArguments of src/utilities.c lines 117-372, modelled after
parseArgs: the checks run in source order — parseArgs failure, help,
the four unsupported common options, alpha (reject v < 0), xMin (reject
v < 0), xMax (reject v < 0), xMax < xMin, number of investments (reject
v < 1), low quantile (reject v ≤ 0 or v ≥ 1), high quantile (likewise), and
high quantile < low quantile. -/
def getCommandLineArguments (raw : RawArgs) :
    Except ExitKind CommandLineArguments :=
  if raw.parseOk = false then Except.error ExitKind.failure
  else if raw.common.isHelpEnabled then Except.error ExitKind.helpSuccess
  else if raw.common.isWriteToFileEnabled then Except.error ExitKind.failure
  else if raw.common.isInputFromFileEnabled then Except.error ExitKind.failure
  else if raw.common.isOutputSelected then Except.error ExitKind.failure
  else if raw.common.isVerbose then Except.error ExitKind.failure
  else
    (resolveDoubleArg raw.alphaArg kDefaultValuesAlpha
        (fun v => decide (v < 0))).bind fun alpha =>
    (resolveDoubleArg raw.xMinArg kDefaultValuesXMin
        (fun v => decide (v < 0))).bind fun xMin =>
    (resolveDoubleArg raw.xMaxArg kDefaultValuesXMax
        (fun v => decide (v < 0))).bind fun xMax =>
    if xMax < xMin then Except.error ExitKind.failure
    else
      (resolveIntArg raw.numberOfInvestmentsArg
          kDefaultValuesNumberOfInvestements
          (fun v => decide (v < 1))).bind fun n =>
      (resolveDoubleArg raw.lowQuantileArg
          kDefaultValuesLowQuantileProbability
          (fun v => decide (v ≤ 0) || decide (1 ≤ v))).bind fun lowQ =>
      (resolveDoubleArg raw.highQuantileArg
          kDefaultValuesHighQuantileProbability
          (fun v => decide (v ≤ 0) || decide (1 ≤ v))).bind fun highQ =>
      if highQ < lowQ then Except.error ExitKind.failure
      else Except.ok
        { common := raw.common
          alpha := alpha
          xMin := xMin
          xMax := xMax
          numberOfInvestments := n
          lowQuantileProbability := lowQ
          highQuantileProbability := highQ }

/-- The value an option contributes when it is not malformed: the given
value, or the default when absent. -/
def effectiveDouble (a : ArgVal) (dflt : ℚ) : ℚ :=
  match a with
  | ArgVal.given v => v
  | _ => dflt

/-- Outcome of main (src/main.c lines 83-255): EXIT_FAILURE on a
getCommandLineArguments error before any allocation or sampling, the help
exit, or a completed run carrying the final computation state. -/
inductive MainOutcome where
  | failureExit
  | helpExit
  | completed (final : TrialLoopState)

/-- main of src/main.c: parse and validate the command line, then (only on
success) allocate and run the trial loop and post-processing. -/
def mainRun (raw : RawArgs) (probabilityGT quantile : ℚ → ℚ → ℚ)
    (draws : Nat → Nat → ℚ) : MainOutcome :=
  match getCommandLineArguments raw with
  | Except.error ExitKind.failure => MainOutcome.failureExit
  | Except.error ExitKind.helpSuccess => MainOutcome.helpExit
  | Except.ok arguments =>
      MainOutcome.completed (runMainComputation arguments probabilityGT quantile draws)

/-- A successful resolveDoubleArg yields the effective value and the
argument was not malformed. -/
theorem resolveDoubleArg_ok (a : ArgVal) (dflt : ℚ) (reject : ℚ → Bool)
    (v : ℚ) (h : resolveDoubleArg a dflt reject = Except.ok v) :
    v = effectiveDouble a dflt ∧ a ≠ ArgVal.malformed := by
  cases a with
  | absent =>
      simp only [resolveDoubleArg] at h
      cases h
      exact ⟨rfl, by simp⟩
  | malformed => simp [resolveDoubleArg] at h
  | given w =>
      simp only [resolveDoubleArg] at h
      split at h
      · cases h
      · cases h
        exact ⟨rfl, by simp⟩

/-- resolveDoubleArg never takes the help exit. -/
theorem resolveDoubleArg_ne_help (a : ArgVal) (dflt : ℚ) (reject : ℚ → Bool) :
    resolveDoubleArg a dflt reject ≠ Except.error ExitKind.helpSuccess := by
  cases a with
  | absent => simp [resolveDoubleArg]
  | malformed => simp [resolveDoubleArg]
  | given w =>
      simp only [resolveDoubleArg]
      split <;> simp

/-- resolveIntArg never takes the help exit. -/
theorem resolveIntArg_ne_help (a : IntArgVal) (dflt : Nat) (reject : Int → Bool) :
    resolveIntArg a dflt reject ≠ Except.error ExitKind.helpSuccess := by
  cases a with
  | absent => simp [resolveIntArg]
  | malformed => simp [resolveIntArg]
  | given w =>
      simp only [resolveIntArg]
      split <;> simp

/-- Bind of Except producing a success: the first stage succeeded. -/
theorem except_bind_ok {α β : Type} (x : Except ExitKind α)
    (f : α → Except ExitKind β) (b : β) (h : x.bind f = Except.ok b) :
    ∃ a, x = Except.ok a ∧ f a = Except.ok b := by
  cases x with
  | error e => simp [Except.bind] at h
  | ok a => exact ⟨a, rfl, by simpa [Except.bind] using h⟩

/-- Bind of Except producing an error: either stage produced it. -/
theorem except_bind_error {α β : Type} (x : Except ExitKind α)
    (f : α → Except ExitKind β) (e : ExitKind) (h : x.bind f = Except.error e) :
    x = Except.error e ∨ ∃ a, x = Except.ok a ∧ f a = Except.error e := by
  cases x with
  | error e2 =>
      left
      simp only [Except.bind] at h
      cases h
      rfl
  | ok a => exact Or.inr ⟨a, rfl, by simpa [Except.bind] using h⟩

/-- Inversion of a successful getCommandLineArguments run: the unsupported
options were all off, every stored field is the effective (given or default)
value of its option, and the two range checks passed. -/
theorem getCommandLineArguments_ok_inv (raw : RawArgs)
    (args : CommandLineArguments)
    (h : getCommandLineArguments raw = Except.ok args) :
    raw.common.isHelpEnabled = false
    ∧ raw.common.isWriteToFileEnabled = false
    ∧ raw.common.isInputFromFileEnabled = false
    ∧ raw.common.isOutputSelected = false
    ∧ raw.common.isVerbose = false
    ∧ args.common = raw.common
    ∧ args.alpha = effectiveDouble raw.alphaArg kDefaultValuesAlpha
    ∧ args.xMin = effectiveDouble raw.xMinArg kDefaultValuesXMin
    ∧ args.xMax = effectiveDouble raw.xMaxArg kDefaultValuesXMax
    ∧ args.xMin ≤ args.xMax
    ∧ args.lowQuantileProbability
        = effectiveDouble raw.lowQuantileArg kDefaultValuesLowQuantileProbability
    ∧ args.highQuantileProbability
        = effectiveDouble raw.highQuantileArg kDefaultValuesHighQuantileProbability
    ∧ args.lowQuantileProbability ≤ args.highQuantileProbability := by
  unfold getCommandLineArguments at h
  split at h
  · simp at h
  split at h
  · simp at h
  split at h
  · simp at h
  split at h
  · simp at h
  split at h
  · simp at h
  split at h
  · simp at h
  obtain ⟨alphaV, hA, h⟩ := except_bind_ok _ _ _ h
  obtain ⟨xMinV, hXm, h⟩ := except_bind_ok _ _ _ h
  obtain ⟨xMaxV, hXM, h⟩ := except_bind_ok _ _ _ h
  split at h
  · simp at h
  rename_i hxmlt
  obtain ⟨nV, hN, h⟩ := except_bind_ok _ _ _ h
  obtain ⟨lowV, hL, h⟩ := except_bind_ok _ _ _ h
  obtain ⟨highV, hH, h⟩ := except_bind_ok _ _ _ h
  split at h
  · simp at h
  rename_i hqlt
  have hHelpF : raw.common.isHelpEnabled = false := by simp_all
  have hWriteF : raw.common.isWriteToFileEnabled = false := by simp_all
  have hInputF : raw.common.isInputFromFileEnabled = false := by simp_all
  have hSelF : raw.common.isOutputSelected = false := by simp_all
  have hVerbF : raw.common.isVerbose = false := by simp_all
  obtain ⟨hAeff, -⟩ := resolveDoubleArg_ok _ _ _ _ hA
  obtain ⟨hXmEff, -⟩ := resolveDoubleArg_ok _ _ _ _ hXm
  obtain ⟨hXMEff, -⟩ := resolveDoubleArg_ok _ _ _ _ hXM
  obtain ⟨hLeff, -⟩ := resolveDoubleArg_ok _ _ _ _ hL
  obtain ⟨hHeff, -⟩ := resolveDoubleArg_ok _ _ _ _ hH
  have hxle : xMinV ≤ xMaxV := not_lt.mp hxmlt
  have hqle : lowV ≤ highV := not_lt.mp hqlt
  injection h with h
  subst h
  exact ⟨hHelpF, hWriteF, hInputF, hSelF, hVerbF, rfl,
    hAeff, hXmEff, hXMEff, hxle, hLeff, hHeff, hqle⟩

/-- getCommandLineArguments takes the help exit only when the help flag is
on. -/
theorem getCommandLineArguments_help_inv (raw : RawArgs)
    (h : getCommandLineArguments raw = Except.error ExitKind.helpSuccess) :
    raw.common.isHelpEnabled = true := by
  unfold getCommandLineArguments at h
  split at h
  · simp at h
  split at h
  · assumption
  split at h
  · simp at h
  split at h
  · simp at h
  split at h
  · simp at h
  split at h
  · simp at h
  rcases except_bind_error _ _ _ h with hx | ⟨alphaV, -, h⟩
  · exact absurd hx (resolveDoubleArg_ne_help _ _ _)
  rcases except_bind_error _ _ _ h with hx | ⟨xMinV, -, h⟩
  · exact absurd hx (resolveDoubleArg_ne_help _ _ _)
  rcases except_bind_error _ _ _ h with hx | ⟨xMaxV, -, h⟩
  · exact absurd hx (resolveDoubleArg_ne_help _ _ _)
  split at h
  · simp at h
  rcases except_bind_error _ _ _ h with hx | ⟨nV, -, h⟩
  · exact absurd hx (resolveIntArg_ne_help _ _ _)
  rcases except_bind_error _ _ _ h with hx | ⟨lowV, -, h⟩
  · exact absurd hx (resolveDoubleArg_ne_help _ _ _)
  rcases except_bind_error _ _ _ h with hx | ⟨highV, -, h⟩
  · exact absurd hx (resolveDoubleArg_ne_help _ _ _)
  split at h
  · simp at h
  · simp at h

/-- C7: a command line whose effective xMax is below its effective xMin, or
whose effective high quantile probability is below its effective low
quantile probability, makes getCommandLineArguments return the error value
and main exit with EXIT_FAILURE, before any allocation or sampling (the
failure outcome of mainRun carries no computation state). -/
theorem invalid_ranges_rejected_before_any_computation (raw : RawArgs)
    (probabilityGT quantile : ℚ → ℚ → ℚ) (draws : Nat → Nat → ℚ)
    (hHelp : raw.common.isHelpEnabled = false)
    (hbad :
      (raw.xMinArg ≠ ArgVal.malformed ∧ raw.xMaxArg ≠ ArgVal.malformed
        ∧ effectiveDouble raw.xMaxArg kDefaultValuesXMax
            < effectiveDouble raw.xMinArg kDefaultValuesXMin)
      ∨ (raw.lowQuantileArg ≠ ArgVal.malformed
        ∧ raw.highQuantileArg ≠ ArgVal.malformed
        ∧ effectiveDouble raw.highQuantileArg kDefaultValuesHighQuantileProbability
            < effectiveDouble raw.lowQuantileArg kDefaultValuesLowQuantileProbability)) :
    getCommandLineArguments raw = Except.error ExitKind.failure
    ∧ mainRun raw probabilityGT quantile draws = MainOutcome.failureExit := by
  have herr : getCommandLineArguments raw = Except.error ExitKind.failure := by
    cases hres : getCommandLineArguments raw with
    | ok args =>
        exfalso
        obtain ⟨-, -, -, -, -, -, -, hXm, hXM, hle, hLo, hHi, hqle⟩ :=
          getCommandLineArguments_ok_inv raw args hres
        rcases hbad with ⟨-, -, hlt⟩ | ⟨-, -, hlt⟩
        · rw [hXm, hXM] at hle
          exact absurd hle (not_le.mpr hlt)
        · rw [hLo, hHi] at hqle
          exact absurd hqle (not_le.mpr hlt)
    | error e =>
        cases e with
        | failure => rfl
        | helpSuccess =>
            have := getCommandLineArguments_help_inv raw hres
            simp_all
  refine ⟨herr, ?_⟩
  unfold mainRun
  rw [herr]

/-- Common flags with everything off, used in concrete command lines. -/
def quietCommon : CommonCommandLineArguments :=
  { isMonteCarloMode := false
    numberOfMonteCarloIterations := 1
    isBenchmarkingMode := false
    isTimingEnabled := false
    isOutputJSONMode := false
    isHelpEnabled := false
    isWriteToFileEnabled := false
    isInputFromFileEnabled := false
    isOutputSelected := false
    isVerbose := false }

/-- Witness for C7: a command line giving xMin = 2 and xMax = 1. -/
theorem invalid_ranges_rejected_before_any_computation_witness :
    getCommandLineArguments
        { parseOk := true
          common := quietCommon
          alphaArg := ArgVal.absent
          xMinArg := ArgVal.given 2
          xMaxArg := ArgVal.given 1
          numberOfInvestmentsArg := IntArgVal.absent
          lowQuantileArg := ArgVal.absent
          highQuantileArg := ArgVal.absent }
      = Except.error ExitKind.failure
    ∧ mainRun
        { parseOk := true
          common := quietCommon
          alphaArg := ArgVal.absent
          xMinArg := ArgVal.given 2
          xMaxArg := ArgVal.given 1
          numberOfInvestmentsArg := IntArgVal.absent
          lowQuantileArg := ArgVal.absent
          highQuantileArg := ArgVal.absent }
        (fun _ _ => 0) (fun _ _ => 0) (fun _ _ => 1)
      = MainOutcome.failureExit :=
  invalid_ranges_rejected_before_any_computation
    { parseOk := true
      common := quietCommon
      alphaArg := ArgVal.absent
      xMinArg := ArgVal.given 2
      xMaxArg := ArgVal.given 1
      numberOfInvestmentsArg := IntArgVal.absent
      lowQuantileArg := ArgVal.absent
      highQuantileArg := ArgVal.absent }
    (fun _ _ => 0) (fun _ _ => 0) (fun _ _ => 1) rfl
    (Or.inl ⟨by simp, by simp, by norm_num [effectiveDouble]⟩)

/-- C10: a command line enabling any of the unsupported common options
(write output to file, read input from file, output selection, verbose)
is rejected by getCommandLineArguments with the error return. -/
theorem unsupported_common_options_rejected (raw : RawArgs)
    (hHelp : raw.common.isHelpEnabled = false)
    (hflag : raw.common.isWriteToFileEnabled = true
      ∨ raw.common.isInputFromFileEnabled = true
      ∨ raw.common.isOutputSelected = true
      ∨ raw.common.isVerbose = true) :
    getCommandLineArguments raw = Except.error ExitKind.failure := by
  cases hres : getCommandLineArguments raw with
  | ok args =>
      obtain ⟨-, hW, hI, hS, hV, -⟩ := getCommandLineArguments_ok_inv raw args hres
      rcases hflag with hf | hf | hf | hf <;> simp_all
  | error e =>
      cases e with
      | failure => rfl
      | helpSuccess =>
          have := getCommandLineArguments_help_inv raw hres
          simp_all

/-- Witness for C10: a command line with the verbose flag on. -/
theorem unsupported_common_options_rejected_witness :
    getCommandLineArguments
        { parseOk := true
          common :=
            { isMonteCarloMode := false
              numberOfMonteCarloIterations := 1
              isBenchmarkingMode := false
              isTimingEnabled := false
              isOutputJSONMode := false
              isHelpEnabled := false
              isWriteToFileEnabled := false
              isInputFromFileEnabled := false
              isOutputSelected := false
              isVerbose := true }
          alphaArg := ArgVal.absent
          xMinArg := ArgVal.absent
          xMaxArg := ArgVal.absent
          numberOfInvestmentsArg := IntArgVal.absent
          lowQuantileArg := ArgVal.absent
          highQuantileArg := ArgVal.absent }
      = Except.error ExitKind.failure :=
  unsupported_common_options_rejected
    { parseOk := true
      common :=
        { isMonteCarloMode := false
          numberOfMonteCarloIterations := 1
          isBenchmarkingMode := false
          isTimingEnabled := false
          isOutputJSONMode := false
          isHelpEnabled := false
          isWriteToFileEnabled := false
          isInputFromFileEnabled := false
          isOutputSelected := false
          isVerbose := true }
      alphaArg := ArgVal.absent
      xMinArg := ArgVal.absent
      xMaxArg := ArgVal.absent
      numberOfInvestmentsArg := IntArgVal.absent
      lowQuantileArg := ArgVal.absent
      highQuantileArg := ArgVal.absent }
    rfl (Or.inr (Or.inr (Or.inr rfl)))

/-- The command line of the C4 failing input: alpha supplied as 0, all other
options absent. -/
def c4Raw : RawArgs :=
  { parseOk := true
    common := quietCommon
    alphaArg := ArgVal.given 0
    xMinArg := ArgVal.absent
    xMaxArg := ArgVal.absent
    numberOfInvestmentsArg := IntArgVal.absent
    lowQuantileArg := ArgVal.absent
    highQuantileArg := ArgVal.absent }

/-- C4 is a bug in the code: the guard of src/utilities.c line 209 is
alpha < 0, so the non-positive value alpha = 0 is accepted (the usage text
of src/utilities.c line 57 documents alpha as a double in (0, inf)), the
run proceeds, and alpha = 0 reaches the sampling code. -/
theorem alpha_zero_accepted_by_getCommandLineArguments :
    getCommandLineArguments c4Raw
      = Except.ok
        { common := quietCommon
          alpha := 0
          xMin := kDefaultValuesXMin
          xMax := kDefaultValuesXMax
          numberOfInvestments := kDefaultValuesNumberOfInvestements
          lowQuantileProbability := kDefaultValuesLowQuantileProbability
          highQuantileProbability := kDefaultValuesHighQuantileProbability }
    ∧ ¬ (0 < (0 : ℚ))
    ∧ mainRun c4Raw (fun _ _ => 0) (fun _ _ => 0) (fun _ _ => 1)
      ≠ MainOutcome.failureExit := by
  have hok : getCommandLineArguments c4Raw
      = Except.ok
        { common := quietCommon
          alpha := 0
          xMin := kDefaultValuesXMin
          xMax := kDefaultValuesXMax
          numberOfInvestments := kDefaultValuesNumberOfInvestements
          lowQuantileProbability := kDefaultValuesLowQuantileProbability
          highQuantileProbability := kDefaultValuesHighQuantileProbability } := by
    unfold getCommandLineArguments c4Raw quietCommon
    norm_num [resolveDoubleArg, resolveIntArg, Except.bind,
      kDefaultValuesXMin, kDefaultValuesXMax,
      kDefaultValuesLowQuantileProbability, kDefaultValuesHighQuantileProbability]
  refine ⟨hok, by norm_num, ?_⟩
  unfold mainRun
  rw [hok]
  simp

end Moonfire
